import Mathlib

/-!
Verification development for the financial time-series ingestion pipeline.

The processing engine lives in `src/pipeline/processor.py` (class
`DataProcessor`) and, in a second copy specialised to the Airflow flow, in
`airflow/dags/financial_pipeline.py` (classes `DataProcessor`,
`PipelineMonitor`, `FinancialTimeSeriesPipeline`).  Both operate on pandas
DataFrames whose numeric cells are floats with NaN marking a missing value.

The embedding below models a numeric cell as `Option ℚ` (`none` = NaN /
missing) and a DataFrame as a structure of columns.  Pandas comparison
semantics on NaN (every comparison with NaN is false) are reproduced
case-by-case where the source relies on them.  All definitions are
executable and all record types carry decidable equality so that concrete
runs can be checked by `decide`.
-/

/-- A cell of a numeric DataFrame column: `none` models a pandas NaN. -/
abbrev Cell := Option ℚ

/-- A timestamp cell: a clock value plus an optional timezone label.
`tz = none` models a tz-naive pandas timestamp, `tz = some z` a tz-aware
one.  The clock value is the zone-local reading, so labelling a naive
timestamp (pandas `tz_localize`) keeps `clock` unchanged. -/
structure Stamp where
  clock : ℤ
  tz : Option String
deriving DecidableEq

/-- Elementwise subtraction of two cells; NaN propagates, as for pandas
`Series` arithmetic. -/
def cellSub : Cell → Cell → Cell
  | some a, some b => some (a - b)
  | _, _ => none

/-- Forward fill with an explicit carry: models pandas `Series.ffill()`
(processor.py line 50).  `carry` is the most recent non-missing value seen
before the current suffix (`none` at the start of the column). -/
def ffillFrom (carry : Cell) : List Cell → List Cell
  | [] => []
  | x :: xs =>
    match x with
    | some v => some v :: ffillFrom (some v) xs
    | none => carry :: ffillFrom carry xs

/-- Pandas `Series.ffill()`: each missing entry takes the most recent
preceding non-missing entry; leading missing entries stay missing. -/
def ffill (xs : List Cell) : List Cell := ffillFrom none xs

/-- Pandas `Series.fillna(0)` (processor.py line 53): every missing entry
becomes exactly `0`, defined entries are unchanged. -/
def fillna0 (xs : List Cell) : List Cell := xs.map fun x => some (x.getD 0)

/-- Pandas `Series.rolling(window=n).mean()` with the default
`min_periods = n` (processor.py lines 60-62, 66-67): the output at index
`i` is defined iff at least `n` entries exist up to `i` and the `n`-entry
window ending at `i` contains no missing value, in which case it is the
arithmetic mean of that window. -/
def rollingMean (n : ℕ) (xs : List Cell) : List Cell :=
  (List.range xs.length).map fun i =>
    let w := ((xs.take (i + 1)).drop (i + 1 - n)).reduceOption
    if n ≤ i + 1 ∧ w.length = n then some (w.sum / (n : ℚ)) else none

/-- Pandas `Series.diff()` (processor.py line 65): entry `0` is missing;
entry `i` is `x[i] − x[i−1]` when both are defined, missing otherwise. -/
def diff : List Cell → List Cell
  | [] => []
  | x :: xs => none :: xs.zipWith cellSub (x :: xs)

/-- One entry of `delta.where(delta > 0, 0)` (processor.py line 66): the
delta itself where it is positive, otherwise `0`.  A missing delta compares
false in pandas, so it also becomes `0`. -/
def gainOf : Cell → ℚ
  | some d => if 0 < d then d else 0
  | none => 0

/-- One entry of `(-delta.where(delta < 0, 0))` (processor.py line 67): the
negated delta where the delta is negative, otherwise `0` (missing deltas
compare false and become `0`, and `-0 = 0`). -/
def lossOf : Cell → ℚ
  | some d => if d < 0 then -d else 0
  | none => 0

/-- `100 - (100 / (1 + rs))` with `rs = gain / loss` (processor.py lines
68-69), with IEEE float division mapped to exact arithmetic:
`loss = 0, gain > 0` gives `rs = +∞` and hence RSI `= 100`;
`loss = 0, gain = 0` gives a NaN (missing); otherwise the exact formula. -/
def rsiAt (g l : ℚ) : Cell :=
  if l = 0 then (if g = 0 then none else some 100)
  else some (100 - 100 / (1 + g / l))

/-- The 14-period relative strength index of a close column, exactly as
computed in processor.py lines 64-69 (identically in
financial_pipeline.py lines 136-141). -/
def rsi14 (close : List Cell) : List Cell :=
  let d := diff close
  let g := rollingMean 14 ((d.map gainOf).map some)
  let l := rollingMean 14 ((d.map lossOf).map some)
  (g.zip l).map fun p =>
    match p.1, p.2 with
    | some gv, some lv => rsiAt gv lv
    | _, _ => none

/-- Pandas `Series.ewm(span, adjust=False).mean()` with smoothing factor
`a = 2/(span+1)`, for columns whose missing entries form a (possibly
empty) leading prefix — the only shape reaching the indicator stage, since
close columns are forward-filled first.  `ema[0] = x[0]`,
`ema[i] = a·x[i] + (1−a)·ema[i−1]`; entries before the first defined entry
stay missing, and the running mean is carried through missing entries. -/
def ewmMeanFrom (a : ℚ) : Cell → List Cell → List Cell
  | _, [] => []
  | none, none :: xs => none :: ewmMeanFrom a none xs
  | none, some x :: xs => some x :: ewmMeanFrom a (some x) xs
  | some y, none :: xs => some y :: ewmMeanFrom a (some y) xs
  | some y, some x :: xs =>
    let z := a * x + (1 - a) * y
    some z :: ewmMeanFrom a (some z) xs

/-- `Series.ewm(span=span, adjust=False).mean()` (processor.py lines
72-75). -/
def ewmMean (span : ℕ) (xs : List Cell) : List Cell :=
  ewmMeanFrom (2 / ((span : ℚ) + 1)) none xs

/-- The synthetic close series `[1, 2, 3, ..., 30]` of spec §8. -/
def synClose : List ℚ := (List.range 30).map fun k => (k : ℚ) + 1

/-- Error classes of the pipeline (spec §7): `schemaError` models the
`ValueError("Missing required columns ...")` of `validate_data`;
`typeError` models the `TypeError` pandas raises from `tz_localize` on
tz-aware input. -/
inductive PipeError where
  | schemaError (missing : List String)
  | typeError (msg : String)
deriving DecidableEq

namespace Processor

/-- The raw input table handed to `DataProcessor.validate_data`
(processor.py): a field is `none` when the column is absent from the
table.  Cell values are already well-typed: the pandas coercions of lines
35-37 (`pd.to_datetime`, `pd.to_numeric`) are the identity on well-typed
data, which is the scope of the claims about this function. -/
structure RawFrame where
  timestamp : Option (List Stamp)
  «open» : Option (List Cell)
  high : Option (List Cell)
  low : Option (List Cell)
  close : Option (List Cell)
  volume : Option (List Cell)
  adjusted_close : Option (List Cell)
deriving DecidableEq

/-- A validated frame: all six required columns present; the optional
`adjusted_close` column is carried through untouched. -/
structure Frame where
  timestamp : List Stamp
  «open» : List Cell
  high : List Cell
  low : List Cell
  close : List Cell
  volume : List Cell
  adjusted_close : Option (List Cell)
deriving DecidableEq

/-- The required columns of processor.py line 29. -/
def required_columns : List String :=
  ["timestamp", "open", "high", "low", "close", "volume"]

/-- `set(required_columns) - set(df.columns)` of processor.py line 30:
the required columns absent from the table, in the order of line 29. -/
def missing_columns (df : RawFrame) : List String :=
  (if df.timestamp.isSome then [] else ["timestamp"]) ++
  (if df.«open».isSome then [] else ["open"]) ++
  (if df.high.isSome then [] else ["high"]) ++
  (if df.low.isSome then [] else ["low"]) ++
  (if df.close.isSome then [] else ["close"]) ++
  (if df.volume.isSome then [] else ["volume"])

/-- The index list `df[df['low'] > df['high']].index` of processor.py line
40: rows whose `low` strictly exceeds `high`.  Rows where either cell is
missing compare false in pandas and are not flagged. -/
def invalid_prices (low high : List Cell) : List ℕ :=
  (List.range low.length).filter fun i =>
    match low[i]?, high[i]? with
    | some (some lv), some (some hv) => decide (hv < lv)
    | _, _ => false

/-- `DataProcessor.validate_data` (processor.py lines 27-44) on well-typed
input: raises `ValueError` naming the missing required columns when any is
absent; otherwise returns the frame with its rows unchanged, together with
the index list of `low > high` rows that line 40 computes and line 42 logs
as a warning (the warning is modelled as an explicit second component). -/
def validate_data (df : RawFrame) : Except PipeError (Frame × List ℕ) :=
  match df.timestamp, df.«open», df.high, df.low, df.close, df.volume with
  | some ts, some o, some h, some l, some c, some v =>
    .ok ({ timestamp := ts, «open» := o, high := h, low := l, close := c,
           volume := v, adjusted_close := df.adjusted_close },
         invalid_prices l h)
  | _, _, _, _, _, _ => .error (.schemaError (missing_columns df))

/-- `DataProcessor.handle_missing_values` (processor.py lines 46-55):
forward-fill the four price columns, fill missing volume entries with `0`,
leave every other column untouched. -/
def handle_missing_values (df : Frame) : Frame :=
  { df with
    «open» := ffill df.«open»
    high := ffill df.high
    low := ffill df.low
    close := ffill df.close
    volume := fillna0 df.volume }

/-- A frame enriched with the indicator columns added by
`DataProcessor.calculate_technical_indicators` (processor.py lines
57-78). -/
structure IndFrame where
  timestamp : List Stamp
  «open» : List Cell
  high : List Cell
  low : List Cell
  close : List Cell
  volume : List Cell
  adjusted_close : Option (List Cell)
  sma_20 : List Cell
  sma_50 : List Cell
  sma_200 : List Cell
  rsi_14 : List Cell
  macd : List Cell
  macd_signal : List Cell
  macd_histogram : List Cell
deriving DecidableEq

/-- `DataProcessor.calculate_technical_indicators` (processor.py lines
57-78): simple moving averages over 20/50/200 closes, 14-period RSI, and
the MACD triple from span-12/26 EMAs of close with a span-9 signal. -/
def calculate_technical_indicators (df : Frame) : IndFrame :=
  let exp1 := ewmMean 12 df.close
  let exp2 := ewmMean 26 df.close
  let m := exp1.zipWith cellSub exp2
  { timestamp := df.timestamp
    «open» := df.«open»
    high := df.high
    low := df.low
    close := df.close
    volume := df.volume
    adjusted_close := df.adjusted_close
    sma_20 := rollingMean 20 df.close
    sma_50 := rollingMean 50 df.close
    sma_200 := rollingMean 200 df.close
    rsi_14 := rsi14 df.close
    macd := m
    macd_signal := ewmMean 9 m
    macd_histogram := m.zipWith cellSub (ewmMean 9 m) }

end Processor

namespace Dag

/-- The raw collected table handed to the Airflow pipeline's
`DataProcessor.validate_data` (financial_pipeline.py lines 107-114): a
field is `none` when the column is absent. -/
structure RawFrame where
  Date : Option (List Stamp)
  Open : Option (List Cell)
  High : Option (List Cell)
  Low : Option (List Cell)
  Close : Option (List Cell)
  Volume : Option (List Cell)
deriving DecidableEq

/-- A validated frame of the Airflow pipeline. -/
structure Frame where
  Date : List Stamp
  Open : List Cell
  High : List Cell
  Low : List Cell
  Close : List Cell
  Volume : List Cell
deriving DecidableEq

/-- The required columns of financial_pipeline.py line 109. -/
def required_columns : List String :=
  ["Date", "Open", "High", "Low", "Close", "Volume"]

/-- `[col for col in required_columns if col not in df.columns]`
(financial_pipeline.py lines 110-111): the required columns absent from
the table, in the order of line 109. -/
def missing_columns (df : RawFrame) : List String :=
  (if df.Date.isSome then [] else ["Date"]) ++
  (if df.Open.isSome then [] else ["Open"]) ++
  (if df.High.isSome then [] else ["High"]) ++
  (if df.Low.isSome then [] else ["Low"]) ++
  (if df.Close.isSome then [] else ["Close"]) ++
  (if df.Volume.isSome then [] else ["Volume"])

/-- `DataProcessor.validate_data` (financial_pipeline.py lines 107-114):
raises `ValueError` naming the missing required columns when any is
absent, otherwise returns the frame unchanged. -/
def validate_data (df : RawFrame) : Except PipeError Frame :=
  match df.Date, df.Open, df.High, df.Low, df.Close, df.Volume with
  | some d, some o, some h, some l, some c, some v =>
    .ok { Date := d, Open := o, High := h, Low := l, Close := c, Volume := v }
  | _, _, _, _, _, _ => .error (.schemaError (missing_columns df))

/-- `DataProcessor.handle_missing_values` (financial_pipeline.py lines
116-124): forward-fill the four price columns, fill missing volume with
`0`. -/
def handle_missing_values (df : Frame) : Frame :=
  { df with
    Open := ffill df.Open
    High := ffill df.High
    Low := ffill df.Low
    Close := ffill df.Close
    Volume := fillna0 df.Volume }

/-- `DataProcessor.normalize_timezone` (financial_pipeline.py lines
126-129): `pd.to_datetime(df['Date']).dt.tz_localize('UTC')`.
`tz_localize` labels tz-naive timestamps as UTC without shifting their
clock value, and raises `TypeError` when the column is already tz-aware
(pandas: "Already tz-aware, use tz_convert to convert"). -/
def normalize_timezone (df : Frame) : Except PipeError Frame :=
  if df.Date.all fun t => t.tz.isNone then
    .ok { df with Date := df.Date.map fun t => { t with tz := some "UTC" } }
  else
    .error (.typeError "Already tz-aware, use tz_convert to convert.")

/-- A frame enriched with the two indicator columns of the Airflow
pipeline's `DataProcessor.calculate_technical_indicators`
(financial_pipeline.py lines 131-142). -/
structure IndFrame where
  Date : List Stamp
  Open : List Cell
  High : List Cell
  Low : List Cell
  Close : List Cell
  Volume : List Cell
  SMA_20 : List Cell
  RSI : List Cell
deriving DecidableEq

/-- `DataProcessor.calculate_technical_indicators` (financial_pipeline.py
lines 131-142): 20-period simple moving average and 14-period RSI of the
close column. -/
def calculate_technical_indicators (df : Frame) : IndFrame :=
  { Date := df.Date
    Open := df.Open
    High := df.High
    Low := df.Low
    Close := df.Close
    Volume := df.Volume
    SMA_20 := rollingMean 20 df.Close
    RSI := rsi14 df.Close }

/-- `DataProcessor.process_data` (financial_pipeline.py lines 144-150):
validate, fill gaps, normalize the timezone, compute indicators; any
failing step propagates its error and no frame is produced. -/
def process_data (df : RawFrame) : Except PipeError IndFrame := do
  let f ← validate_data df
  let f := handle_missing_values f
  let f ← normalize_timezone f
  pure (calculate_technical_indicators f)

/-- The quality issues reported by `PipelineMonitor.check_data_quality`
(financial_pipeline.py lines 190-210), abstracting its three f-string
shapes: `highMissing pct` is `"High missing values: {pct}%"`,
`duplicateDates` is `"Duplicate dates found"`, and `priceAnomaly col` is
`"Price anomalies detected in {col}"`. -/
inductive Issue where
  | highMissing (pct : ℚ)
  | duplicateDates
  | priceAnomaly (col : String)
deriving DecidableEq

/-- `df[col].isnull().mean()` for one column: the fraction of missing
entries (`0` for the empty column, where pandas produces a NaN that makes
the `> 5%` test below false, as `0` does). -/
def nullFrac (xs : List Cell) : ℚ :=
  (xs.countP fun x => x.isNone) / xs.length

/-- `(df.isnull().mean() * 100).max()` over the columns of the processed
frame (financial_pipeline.py line 195).  The `Date` column contributes the
ratio `0`: its entries are never missing in the model. -/
def missing_pct (df : IndFrame) : ℚ :=
  100 * ([0, nullFrac df.Open, nullFrac df.High, nullFrac df.Low,
          nullFrac df.Close, nullFrac df.Volume,
          nullFrac df.SMA_20, nullFrac df.RSI].foldr max 0)

/-- `(abs((df[col] - df[col].mean()) / df[col].std()) > 3).any()`
(financial_pipeline.py lines 205-207) in exact arithmetic: pandas mean and
(ddof = 1) standard deviation skip missing entries, and the test
`|x − μ| / σ > 3` is stated multiplicatively as
`9 · Σ(v − μ)² < (x − μ)² · (m − 1)` over the `m` defined entries, which
agrees with the floating-point test whenever `σ > 0` and, like it, is
false when `σ` is zero or undefined (a NaN comparison is false). -/
def hasAnomaly (xs : List Cell) : Bool :=
  let v := xs.reduceOption
  let m : ℚ := v.sum / v.length
  v.any fun x =>
    decide (9 * ((v.map fun y => (y - m) ^ 2).sum) < (x - m) ^ 2 * ((v.length : ℚ) - 1))

/-- `PipelineMonitor.check_data_quality` (financial_pipeline.py lines
190-210): accumulate the high-missing-values issue, the duplicate-dates
issue, and one price-anomaly issue per offending price column; issues are
returned as data, never raised. -/
def check_data_quality (df : IndFrame) : List Issue :=
  (if 5 < missing_pct df then [Issue.highMissing (missing_pct df)] else [])
  ++ (if ¬ df.Date.Nodup then [Issue.duplicateDates] else [])
  ++ (if hasAnomaly df.Open then [Issue.priceAnomaly "Open"] else [])
  ++ (if hasAnomaly df.High then [Issue.priceAnomaly "High"] else [])
  ++ (if hasAnomaly df.Low then [Issue.priceAnomaly "Low"] else [])
  ++ (if hasAnomaly df.Close then [Issue.priceAnomaly "Close"] else [])

/-- The process-then-monitor steps of `FinancialTimeSeriesPipeline.run`
(financial_pipeline.py lines 244-251): process the collected frame, then
run the quality monitor; issues are logged, never raised, and accompany
the successfully processed frame.  Collection and storage are external
collaborators, out of scope (spec §1). -/
def run (df : RawFrame) : Except PipeError (IndFrame × List Issue) := do
  let f ← process_data df
  pure (f, check_data_quality f)

end Dag

deriving instance DecidableEq for Except

/-- The 14-bar alternating close series used to exercise a defined RSI
value. -/
def altClose : List Cell :=
  [some 1, some 2, some 1, some 2, some 1, some 2, some 1, some 2,
   some 1, some 2, some 1, some 2, some 1, some 2]

/-- A two-bar collected raw frame with tz-naive dates and one missing
volume entry. -/
def rfGood : Dag.RawFrame :=
  { Date := some [⟨0, none⟩, ⟨1, none⟩]
    Open := some [some 1, some 2]
    High := some [some 2, some 3]
    Low := some [some 1, some 1]
    Close := some [some 1, some 2]
    Volume := some [some 10, none] }

/-- The frame `Dag.process_data` produces from `rfGood`. -/
def fGood : Dag.IndFrame :=
  { Date := [⟨0, some "UTC"⟩, ⟨1, some "UTC"⟩]
    Open := [some 1, some 2]
    High := [some 2, some 3]
    Low := [some 1, some 1]
    Close := [some 1, some 2]
    Volume := [some 10, some 0]
    SMA_20 := [none, none]
    RSI := [none, none] }

/-- `rfGood` with its close column deleted. -/
def rfNoClose : Dag.RawFrame := { rfGood with Close := none }

/-- A processor frame whose close column is `altClose`. -/
def dfAlt : Processor.Frame :=
  { timestamp := [], «open» := [], high := [], low := [], close := altClose,
    volume := [], adjusted_close := none }

/-- A processor frame whose close is constantly `5` over three bars. -/
def dfConst : Processor.Frame :=
  { timestamp := [], «open» := [], high := [], low := [], close := List.replicate 3 (some 5),
    volume := [], adjusted_close := none }

/-- A two-row raw processor table whose first row has `low > high`. -/
def rfProc : Processor.RawFrame :=
  { timestamp := some [⟨0, none⟩, ⟨1, none⟩]
    «open» := some [some 1, some 2]
    high := some [some 3, some 2]
    low := some [some 5, some 1]
    close := some [some 2, some 2]
    volume := some [some 10, some 20]
    adjusted_close := none }

/-- `rfProc` with its close column deleted. -/
def rfProcNoClose : Processor.RawFrame := { rfProc with close := none }

/-- A two-bar validated Airflow frame with tz-naive dates and no missing
price or volume entries. -/
def fNaive : Dag.Frame :=
  { Date := [⟨0, none⟩, ⟨1, none⟩]
    Open := [some 1, some 2]
    High := [some 2, some 3]
    Low := [some 1, some 1]
    Close := [some 1, some 2]
    Volume := [some 10, some 0] }

section Lemmas

theorem reduceOption_map_some (c : List ℚ) : (c.map some).reduceOption = c := by
  induction c with
  | nil => rfl
  | cons x xs ih => simp [List.reduceOption_cons_of_some, ih]

theorem rollingMean_getElem (n : ℕ) (xs : List Cell) (i : ℕ) (h : i < xs.length) :
    (rollingMean n xs)[i]? =
      some (if n ≤ i + 1 ∧ (((xs.take (i + 1)).drop (i + 1 - n)).reduceOption).length = n
            then some ((((xs.take (i + 1)).drop (i + 1 - n)).reduceOption).sum / (n : ℚ))
            else none) := by
  simp [rollingMean, List.getElem?_range, h]

theorem rollingMean_getElem_none (n : ℕ) (xs : List Cell) (i : ℕ) (h : xs.length ≤ i) :
    (rollingMean n xs)[i]? = none := by
  apply List.getElem?_eq_none
  simpa [rollingMean] using h

theorem rollingMean_map_some (n : ℕ) (c : List ℚ) (i : ℕ) (h : i < c.length) :
    (rollingMean n (c.map some))[i]? =
      some (if n ≤ i + 1
            then some ((((c.take (i + 1)).drop (i + 1 - n)).sum) / (n : ℚ))
            else none) := by
  have hlen : i < (c.map some).length := by simpa using h
  rw [rollingMean_getElem n (c.map some) i hlen]
  rw [← List.map_take, ← List.map_drop, reduceOption_map_some]
  have hw : ((c.take (i + 1)).drop (i + 1 - n)).length = min n (i + 1) := by
    simp [List.length_drop, List.length_take]
    omega
  by_cases hn : n ≤ i + 1
  · have : ((c.take (i + 1)).drop (i + 1 - n)).length = n := by omega
    simp [hn, this]
  · have : ¬(n ≤ i + 1 ∧ ((c.take (i + 1)).drop (i + 1 - n)).length = n) := by
      intro hc
      exact hn hc.1
    simp [hn]

theorem gainOf_nonneg (x : Cell) : 0 ≤ gainOf x := by
  cases x with
  | none => simp [gainOf]
  | some d =>
    simp only [gainOf]
    split <;> linarith

theorem lossOf_nonneg (x : Cell) : 0 ≤ lossOf x := by
  cases x with
  | none => simp [lossOf]
  | some d =>
    simp only [lossOf]
    split <;> linarith

theorem rollingMean_map_some_nonneg (n : ℕ) (c : List ℚ) (hc : ∀ q ∈ c, 0 ≤ q)
    (i : ℕ) (x : ℚ) (h : (rollingMean n (c.map some))[i]? = some (some x)) : 0 ≤ x := by
  by_cases hi : i < c.length
  · rw [rollingMean_map_some n c i hi] at h
    by_cases hn : n ≤ i + 1
    · simp only [hn, if_true] at h
      have hx : (((c.take (i + 1)).drop (i + 1 - n)).sum) / (n : ℚ) = x := by
        simpa using h
      have hsum : 0 ≤ ((c.take (i + 1)).drop (i + 1 - n)).sum := by
        apply List.sum_nonneg
        intro q hq
        exact hc q (List.mem_of_mem_take (List.mem_of_mem_drop hq))
      rw [← hx]
      exact div_nonneg hsum (by positivity)
    · simp [hn] at h
  · rw [rollingMean_getElem_none n (c.map some) i (by simpa using Nat.le_of_not_lt hi)] at h
    exact absurd h (by simp)

theorem rsiAt_bounds (g l : ℚ) (hg : 0 ≤ g) (hl : 0 ≤ l) (x : ℚ)
    (h : rsiAt g l = some x) : 0 ≤ x ∧ x ≤ 100 := by
  unfold rsiAt at h
  by_cases h0 : l = 0
  · by_cases hg0 : g = 0
    · simp [h0, hg0] at h
    · simp only [h0, hg0, if_true, if_false] at h
      have : (100 : ℚ) = x := by simpa using h
      constructor <;> linarith
  · simp only [h0, if_false] at h
    have hlpos : 0 < l := lt_of_le_of_ne hl (Ne.symm h0)
    have hrs : 0 ≤ g / l := div_nonneg hg hl
    have h1 : (0 : ℚ) < 1 + g / l := by linarith
    have hle : 100 / (1 + g / l) ≤ 100 := by
      rw [div_le_iff₀ h1]
      linarith
    have hpos : 0 < 100 / (1 + g / l) := div_pos (by norm_num) h1
    have hx : 100 - 100 / (1 + g / l) = x := by simpa using h
    constructor <;> linarith

theorem ewmMeanFrom_replicate (a c : ℚ) (m : ℕ) :
    ewmMeanFrom a (some c) (List.replicate m (some c)) = List.replicate m (some c) := by
  induction m with
  | zero => rfl
  | succ k ih =>
    rw [List.replicate_succ]
    have hz : a * c + (1 - a) * c = c := by ring
    simp only [ewmMeanFrom]
    rw [hz, ih, ← List.replicate_succ]

theorem ewmMean_replicate (s : ℕ) (c : ℚ) (m : ℕ) :
    ewmMean s (List.replicate m (some c)) = List.replicate m (some c) := by
  cases m with
  | zero => rfl
  | succ k =>
    rw [List.replicate_succ]
    show ewmMeanFrom _ none (some c :: _) = _
    simp only [ewmMeanFrom]
    rw [ewmMeanFrom_replicate _ c k, ← List.replicate_succ]

theorem zipWith_cellSub_replicate (m : ℕ) (a b : Cell) :
    List.zipWith cellSub (List.replicate m a) (List.replicate m b) =
      List.replicate m (cellSub a b) := by
  induction m with
  | zero => rfl
  | succ k ih => simp [List.replicate_succ, ih]

theorem ffillFrom_cons (c x : Cell) (xs : List Cell) :
    ffillFrom c (x :: xs) = (x.or c) :: ffillFrom (x.or c) xs := by
  cases x <;> rfl

theorem or_getLast?_cons (x : Cell) (l : List Cell) (c : Cell) :
    ((x :: l).reduceOption.getLast?).or c = (l.reduceOption.getLast?).or (x.or c) := by
  cases x with
  | none => simp [List.reduceOption_cons_of_none]
  | some v =>
    rw [List.reduceOption_cons_of_some]
    cases hl : l.reduceOption with
    | nil => simp
    | cons b m =>
      rw [List.getLast?_cons_cons]
      have hs : ((b :: m).getLast?).isSome := by
        rw [List.getLast?_isSome]
        exact List.cons_ne_nil b m
      obtain ⟨w, hw⟩ := Option.isSome_iff_exists.mp hs
      simp [hw]

theorem ffillFrom_getElem (xs : List Cell) : ∀ (c : Cell) (i : ℕ), i < xs.length →
    (ffillFrom c xs)[i]? = some (((xs.take (i + 1)).reduceOption.getLast?).or c) := by
  induction xs with
  | nil => intro c i h; simp at h
  | cons x t ih =>
    intro c i h
    rw [ffillFrom_cons]
    cases i with
    | zero =>
      simp only [List.getElem?_cons_zero]
      cases x <;>
        simp [List.reduceOption_cons_of_some, List.reduceOption_cons_of_none]
    | succ j =>
      simp only [List.getElem?_cons_succ]
      rw [ih (x.or c) j (by simpa using h)]
      rw [List.take_succ_cons, or_getLast?_cons]

theorem or_or_self (x c : Cell) : (x.or c).or c = x.or c := by
  cases x <;> cases c <;> rfl

theorem ffillFrom_idem (xs : List Cell) : ∀ c : Cell,
    ffillFrom c (ffillFrom c xs) = ffillFrom c xs := by
  induction xs with
  | nil => intro c; rfl
  | cons x t ih =>
    intro c
    rw [ffillFrom_cons, ffillFrom_cons, or_or_self, ih (x.or c)]

theorem fillna0_idem (xs : List Cell) : fillna0 (fillna0 xs) = fillna0 xs := by
  simp [fillna0, List.map_map, Function.comp]

/-- `rsi14` with its let-bindings unfolded. -/
theorem rsi14_eq (close : List Cell) : rsi14 close =
    ((rollingMean 14 (((diff close).map gainOf).map some)).zip
      (rollingMean 14 (((diff close).map lossOf).map some))).map fun p =>
      match p.1, p.2 with
      | some gv, some lv => rsiAt gv lv
      | _, _ => none := rfl

end Lemmas

/-- C1.  The `sma_20` column is `rolling(window=20).mean()` of close; for
every series it is undefined at indices `i < 19`, and at every `i ≥ 19`
(when the closes are defined) it equals the arithmetic mean of the 20
closes `close[i-19 .. i]`; on the synthetic close series `[1, 2, ..., 30]`
it is undefined at indices 0..18 and equals the trailing-20 mean at every
index from 19 on (`10.5` at 19, `20.5` at 29). -/
theorem spec_C1 :
    (∀ df : Processor.Frame,
      (Processor.calculate_technical_indicators df).sma_20 = rollingMean 20 df.close)
  ∧ (∀ (xs : List Cell) (i : ℕ), i < xs.length → i < 19 →
      (rollingMean 20 xs)[i]? = some none)
  ∧ (∀ (c : List ℚ) (i : ℕ), i < c.length → 19 ≤ i →
      (rollingMean 20 (c.map some))[i]? =
        some (some ((((c.take (i + 1)).drop (i - 19)).sum) / 20)))
  ∧ ((rollingMean 20 (synClose.map some)).take 19 = List.replicate 19 none)
  ∧ ((rollingMean 20 (synClose.map some))[19]? = some (some (21 / 2)))
  ∧ ((rollingMean 20 (synClose.map some))[29]? = some (some (41 / 2))) := by
  refine ⟨fun df => rfl, ?_, ?_, ?_, ?_, ?_⟩
  · intro xs i hi h19
    rw [rollingMean_getElem 20 xs i hi]
    have hno : ¬ (20 ≤ i + 1) := by omega
    simp [hno]
  · intro c i hi h19
    rw [rollingMean_map_some 20 c i hi]
    have hyes : 20 ≤ i + 1 := by omega
    have harith : i + 1 - 20 = i - 19 := by omega
    rw [harith]
    simp [hyes]
  · exact of_decide_eq_true (by with_unfolding_all rfl)
  · exact of_decide_eq_true (by with_unfolding_all rfl)
  · exact of_decide_eq_true (by with_unfolding_all rfl)

/-- Witness for C1: both hypothesis-bearing parts instantiated on the
synthetic series. -/
theorem spec_C1_witness :
    ((rollingMean 20 (synClose.map some))[5]? = some none)
  ∧ ((rollingMean 20 (synClose.map some))[19]? =
      some (some (((synClose.take 20).drop 0).sum / 20))) :=
  ⟨spec_C1.2.1 (synClose.map some) 5 (by decide) (by omega),
   spec_C1.2.2.1 synClose 19 (by decide) (by omega)⟩

/-- C2.  Every defined `rsi_14` value, computed from 14-period rolling
means of the positive and negative parts of the close differences via
`RS = avg_gain / avg_loss` and `RSI = 100 − 100/(1+RS)`, lies in
`[0, 100]`. -/
theorem spec_C2 (df : Processor.Frame) (i : ℕ) (x : ℚ)
    (h : ((Processor.calculate_technical_indicators df).rsi_14)[i]? = some (some x)) :
    0 ≤ x ∧ x ≤ 100 := by
  have h2 : (rsi14 df.close)[i]? = some (some x) := h
  rw [rsi14_eq, List.getElem?_map] at h2
  obtain ⟨p, hp, hfp⟩ := Option.map_eq_some'.mp h2
  obtain ⟨hpg, hpl⟩ := (List.getElem?_zip_eq_some).mp hp
  obtain ⟨pg, pl⟩ := p
  cases pg with
  | none => simp at hfp
  | some gv =>
    cases pl with
    | none => simp at hfp
    | some lv =>
      have hfp2 : rsiAt gv lv = some x := hfp
      have hg : 0 ≤ gv := by
        apply rollingMean_map_some_nonneg 14 ((diff df.close).map gainOf) ?_ i gv hpg
        intro q hq
        obtain ⟨y, _, rfl⟩ := List.mem_map.mp hq
        exact gainOf_nonneg y
      have hl : 0 ≤ lv := by
        apply rollingMean_map_some_nonneg 14 ((diff df.close).map lossOf) ?_ i lv hpl
        intro q hq
        obtain ⟨y, _, rfl⟩ := List.mem_map.mp hq
        exact lossOf_nonneg y
      exact rsiAt_bounds gv lv hg hl x hfp2

set_option maxRecDepth 8000 in
/-- Witness for C2: on the alternating 14-bar series the RSI at index 13
is defined and equals `700/13`, which the theorem places in `[0, 100]`. -/
theorem spec_C2_witness :
    (((Processor.calculate_technical_indicators dfAlt).rsi_14)[13]? =
      some (some (700 / 13)))
  ∧ (0 ≤ (700 / 13 : ℚ) ∧ (700 / 13 : ℚ) ≤ 100) :=
  have hh : ((Processor.calculate_technical_indicators dfAlt).rsi_14)[13]? =
      some (some (700 / 13)) := of_decide_eq_true (by with_unfolding_all rfl)
  ⟨hh, spec_C2 dfAlt 13 (700 / 13) hh⟩

/-- C3.  For a constant close column, both the span-12 and span-26 EMAs
(recurrence `ema[0] = close[0]`, `ema[i] = α·close[i] + (1−α)·ema[i−1]`,
`α = 2/(span+1)`) equal the constant, so `macd` and `macd_signal` are `0`
at every bar from inception. -/
theorem spec_C3 (df : Processor.Frame) (n : ℕ) (c : ℚ)
    (h : df.close = List.replicate n (some c)) :
    (Processor.calculate_technical_indicators df).macd = List.replicate n (some 0)
  ∧ (Processor.calculate_technical_indicators df).macd_signal = List.replicate n (some 0) := by
  have hm : (Processor.calculate_technical_indicators df).macd = List.replicate n (some 0) := by
    show List.zipWith cellSub (ewmMean 12 df.close) (ewmMean 26 df.close) = _
    rw [h, ewmMean_replicate, ewmMean_replicate, zipWith_cellSub_replicate]
    simp [cellSub]
  refine ⟨hm, ?_⟩
  show ewmMean 9 (List.zipWith cellSub (ewmMean 12 df.close) (ewmMean 26 df.close)) = _
  have hm2 : List.zipWith cellSub (ewmMean 12 df.close) (ewmMean 26 df.close) =
      List.replicate n (some 0) := hm
  rw [hm2, ewmMean_replicate]

/-- Witness for C3: a three-bar constant close series. -/
theorem spec_C3_witness :
    (Processor.calculate_technical_indicators dfConst).macd = List.replicate 3 (some 0)
  ∧ (Processor.calculate_technical_indicators dfConst).macd_signal =
      List.replicate 3 (some 0) :=
  spec_C3 dfConst 3 5 rfl

/-- C4.  `handle_missing_values` forward-fills exactly the four price
columns — the value at `i` becomes the most recent non-missing value at an
index `≤ i`, and stays missing when there is none (no backward fill) —
replaces every missing volume entry by exactly `0` (defined volume entries
are untouched, never forward-filled), and leaves the timestamp and
`adjusted_close` columns unchanged. -/
theorem spec_C4 (df : Processor.Frame) :
    ((Processor.handle_missing_values df).«open» = ffill df.«open»
      ∧ (Processor.handle_missing_values df).high = ffill df.high
      ∧ (Processor.handle_missing_values df).low = ffill df.low
      ∧ (Processor.handle_missing_values df).close = ffill df.close)
  ∧ (∀ (xs : List Cell) (i : ℕ), i < xs.length →
      (ffill xs)[i]? = some ((xs.take (i + 1)).reduceOption.getLast?))
  ∧ ((Processor.handle_missing_values df).volume = df.volume.map fun x => some (x.getD 0))
  ∧ (Processor.handle_missing_values df).timestamp = df.timestamp
  ∧ (Processor.handle_missing_values df).adjusted_close = df.adjusted_close := by
  refine ⟨⟨rfl, rfl, rfl, rfl⟩, ?_, rfl, rfl, rfl⟩
  intro xs i h
  rw [ffill, ffillFrom_getElem xs none i h]
  simp

/-- Witness for C4: forward-filling `[none, some 3, none]` keeps the
leading entry missing and fills index 2 with the value from index 1. -/
theorem spec_C4_witness :
    ((ffill [none, some 3, none])[0]? = some none)
  ∧ ((ffill [none, some 3, none])[2]? = some (some 3)) := by
  constructor
  · have h := (spec_C4 dfConst).2.1 [none, some 3, none] 0 (by decide)
    simpa using h
  · have h := (spec_C4 dfConst).2.1 [none, some 3, none] 2 (by decide)
    simpa using h

/-- C5.  `handle_missing_values` is idempotent: applying the gap-filling
policy to an already-filled frame changes nothing. -/
theorem spec_C5 (df : Processor.Frame) :
    Processor.handle_missing_values (Processor.handle_missing_values df) =
      Processor.handle_missing_values df := by
  simp only [Processor.handle_missing_values, ffill]
  simp [ffillFrom_idem, fillna0_idem]

/-- C6.  `validate_data` fails with the schema error naming the missing
required columns whenever any of `timestamp, open, high, low, close,
volume` is absent (a table missing `close` reports `close` as missing, and
no frame is returned), and the error branch is not taken when all six are
present. -/
theorem spec_C6 :
    (∀ df : Processor.RawFrame, Processor.missing_columns df ≠ [] →
      Processor.validate_data df =
        .error (.schemaError (Processor.missing_columns df)))
  ∧ (∀ df : Processor.RawFrame, df.close = none →
      "close" ∈ Processor.missing_columns df)
  ∧ (∀ df : Processor.RawFrame, Processor.missing_columns df = [] →
      (Processor.validate_data df).isOk = true) := by
  refine ⟨?_, ?_, ?_⟩
  · rintro ⟨ts, o, h, l, c, v, ac⟩ hne
    cases ts <;> cases o <;> cases h <;> cases l <;> cases c <;> cases v <;>
      simp [Processor.validate_data, Processor.missing_columns] at hne ⊢
  · rintro ⟨ts, o, h, l, c, v, ac⟩ hc
    cases hc
    simp [Processor.missing_columns]
  · rintro ⟨ts, o, h, l, c, v, ac⟩ hnil
    cases ts <;> cases o <;> cases h <;> cases l <;> cases c <;> cases v <;>
      simp [Processor.validate_data, Processor.missing_columns,
        Except.isOk, Except.toBool] at hnil ⊢

/-- Witness for C6: deleting the close column from a concrete two-row
table makes validation fail with the schema error naming `close`, while
the full table passes validation. -/
theorem spec_C6_witness :
    (Processor.validate_data rfProcNoClose =
      .error (.schemaError (Processor.missing_columns rfProcNoClose)))
  ∧ ("close" ∈ Processor.missing_columns rfProcNoClose)
  ∧ ((Processor.validate_data rfProc).isOk = true) :=
  ⟨spec_C6.1 rfProcNoClose (by decide),
   spec_C6.2.1 rfProcNoClose (by decide),
   spec_C6.2.2 rfProc (by decide)⟩

/-- Membership in the invalid-price index list of processor.py line 40. -/
theorem invalid_prices_mem (low high : List Cell) (i : ℕ) :
    i ∈ Processor.invalid_prices low high ↔
      i < low.length ∧ ∃ lv hv, low[i]? = some (some lv) ∧
        high[i]? = some (some hv) ∧ hv < lv := by
  unfold Processor.invalid_prices
  rw [List.mem_filter, List.mem_range]
  constructor
  · rintro ⟨hi, hp⟩
    refine ⟨hi, ?_⟩
    rcases hl : low[i]? with _ | (_ | lv) <;> rcases hh : high[i]? with _ | (_ | hv) <;>
      rw [hl, hh] at hp <;> simp at hp
    exact ⟨lv, hv, rfl, rfl, hp⟩
  · rintro ⟨hi, lv, hv, hl, hh, hlt⟩
    refine ⟨hi, ?_⟩
    rw [hl, hh]
    simpa using hlt

/-- C7.  On a well-typed table with all required columns present,
`validate_data` never fails: it returns every row unchanged, and the
`low > high` rows are exactly the ones it detects and logs as the warning
index list (they are flagged, not dropped and not raised). -/
theorem spec_C7 (ts : List Stamp) (o h l c v : List Cell) (ac : Option (List Cell)) :
    (Processor.validate_data
        { timestamp := some ts, «open» := some o, high := some h, low := some l,
          close := some c, volume := some v, adjusted_close := ac } =
      .ok ({ timestamp := ts, «open» := o, high := h, low := l, close := c,
             volume := v, adjusted_close := ac }, Processor.invalid_prices l h))
  ∧ (∀ i lv hv, l[i]? = some (some lv) → h[i]? = some (some hv) → hv < lv →
      i ∈ Processor.invalid_prices l h)
  ∧ (∀ i, i ∈ Processor.invalid_prices l h →
      i < l.length ∧ ∃ lv hv, l[i]? = some (some lv) ∧ h[i]? = some (some hv) ∧ hv < lv) := by
  refine ⟨rfl, ?_, ?_⟩
  · intro i lv hv hl hh hlt
    have hi : i < l.length := by
      by_contra hge
      rw [List.getElem?_eq_none (Nat.le_of_not_lt hge)] at hl
      exact absurd hl (by simp)
    exact (invalid_prices_mem l h i).mpr ⟨hi, lv, hv, hl, hh, hlt⟩
  · intro i hi
    exact (invalid_prices_mem l h i).mp hi

/-- Witness for C7: on the concrete table `rfProc`, whose first row has
`low = 5 > 3 = high`, validation succeeds and flags exactly row 0. -/
theorem spec_C7_witness :
    0 ∈ Processor.invalid_prices [some 5, some 1] [some 3, some 2] :=
  (spec_C7 [⟨0, none⟩, ⟨1, none⟩] [some 1, some 2] [some 3, some 2]
      [some 5, some 1] [some 2, some 2] [some 10, some 20] none).2.1 0 5 3
    rfl rfl (of_decide_eq_true (by with_unfolding_all rfl))

/-- C8.  `normalize_timezone` maps every timestamp of a successfully
normalized series to the canonical UTC label, and on every series whose
timestamps carry no zone information it succeeds, labelling each
timestamp UTC while leaving its clock value unchanged (localize, not
convert). -/
theorem spec_C8 :
    (∀ f g : Dag.Frame, Dag.normalize_timezone f = .ok g →
      ∀ t ∈ g.Date, t.tz = some "UTC")
  ∧ (∀ f : Dag.Frame, (∀ t ∈ f.Date, t.tz = none) →
      Dag.normalize_timezone f =
        .ok { f with Date := f.Date.map fun t => { t with tz := some "UTC" } }) := by
  constructor
  · intro f g hok t ht
    unfold Dag.normalize_timezone at hok
    by_cases hall : f.Date.all fun s => s.tz.isNone
    · rw [if_pos hall] at hok
      have hg : g = { f with Date := f.Date.map fun s => { s with tz := some "UTC" } } :=
        (Except.ok.inj hok).symm
      subst hg
      obtain ⟨s, _, rfl⟩ := List.mem_map.mp ht
      rfl
    · rw [if_neg hall] at hok
      exact absurd hok (by simp)
  · intro f hall
    unfold Dag.normalize_timezone
    have hb : f.Date.all (fun s => s.tz.isNone) = true := by
      rw [List.all_eq_true]
      intro s hs
      simp [hall s hs]
    rw [if_pos hb]

/-- Witness for C8: the naive two-bar frame `fNaive` is localized to UTC
with both clock values unchanged. -/
theorem spec_C8_witness :
    Dag.normalize_timezone fNaive =
      .ok { fNaive with Date := fNaive.Date.map fun t => { t with tz := some "UTC" } } :=
  spec_C8.2 fNaive (by decide)

/-- C9.  The pipeline runs the fixed sequence validate → fill gaps →
(normalize timezone, compute indicators — both before the quality check) →
quality check: a validation failure propagates its originating error and
produces no result, while for every successfully processed frame the
quality issues are returned as informational output alongside it and never
abort the run. -/
theorem spec_C9 :
    (∀ (df : Dag.RawFrame) (e : PipeError), Dag.validate_data df = .error e →
      Dag.run df = .error e)
  ∧ (∀ (df : Dag.RawFrame) (f : Dag.IndFrame), Dag.process_data df = .ok f →
      Dag.run df = .ok (f, Dag.check_data_quality f))
  ∧ (∀ df : Dag.RawFrame, Dag.process_data df =
      (Dag.validate_data df).bind fun f =>
        (Dag.normalize_timezone (Dag.handle_missing_values f)).map
          Dag.calculate_technical_indicators) := by
  have h3 : ∀ df : Dag.RawFrame, Dag.process_data df =
      (Dag.validate_data df).bind fun f =>
        (Dag.normalize_timezone (Dag.handle_missing_values f)).map
          Dag.calculate_technical_indicators := by
    intro df
    unfold Dag.process_data
    cases hv : Dag.validate_data df with
    | error e => rfl
    | ok f =>
      show (Dag.normalize_timezone (Dag.handle_missing_values f)).bind
          (fun f2 => pure (Dag.calculate_technical_indicators f2)) =
        Except.map Dag.calculate_technical_indicators
          (Dag.normalize_timezone (Dag.handle_missing_values f))
      cases hn : Dag.normalize_timezone (Dag.handle_missing_values f) with
      | error e2 => rfl
      | ok f2 => rfl
  have h2 : ∀ (df : Dag.RawFrame) (f : Dag.IndFrame), Dag.process_data df = .ok f →
      Dag.run df = .ok (f, Dag.check_data_quality f) := by
    intro df f hp
    unfold Dag.run
    rw [hp]
    rfl
  have h1 : ∀ (df : Dag.RawFrame) (e : PipeError), Dag.validate_data df = .error e →
      Dag.run df = .error e := by
    intro df e he
    have hp : Dag.process_data df = .error e := by rw [h3 df, he]; rfl
    unfold Dag.run
    rw [hp]
    rfl
  exact ⟨h1, h2, h3⟩

set_option maxRecDepth 8000 in
/-- Witness for C9: removing the close column aborts the run with the
schema error, while the full two-bar frame processes successfully and
returns its quality issues alongside the processed frame. -/
theorem spec_C9_witness :
    (Dag.run rfNoClose = .error (.schemaError ["Close"]))
  ∧ (Dag.run rfGood = .ok (fGood, Dag.check_data_quality fGood)) :=
  ⟨spec_C9.1 rfNoClose (.schemaError ["Close"]) (by decide),
   spec_C9.2.1 rfGood fGood (of_decide_eq_true (by with_unfolding_all rfl))⟩

theorem rollingMean_length (n : ℕ) (xs : List Cell) :
    (rollingMean n xs).length = xs.length := by
  simp [rollingMean]

theorem le_foldr_max (a : ℚ) (l : List ℚ) (b : ℚ) (h : a ∈ l) : a ≤ l.foldr max b := by
  induction l with
  | nil => cases h
  | cons x xs ih =>
    rcases List.mem_cons.mp h with rfl | h2
    · exact le_max_left _ _
    · exact le_trans (ih h2) (le_max_right _ _)

theorem exists_map_some_of_all_isSome (xs : List Cell)
    (h : xs.all Option.isSome = true) : xs = xs.reduceOption.map some := by
  induction xs with
  | nil => rfl
  | cons x t ih =>
    rw [List.all_cons, Bool.and_eq_true] at h
    cases x with
    | none => simp at h
    | some v =>
      rw [List.reduceOption_cons_of_some, List.map_cons]
      exact congrArg _ (ih h.2)

theorem countP_isNone_rollingMean (n : ℕ) (c : List ℚ) :
    ((rollingMean n (c.map some)).countP fun x => x.isNone) =
      (List.range c.length).countP fun i => decide (i + 1 < n) := by
  unfold rollingMean
  rw [List.countP_map, List.length_map]
  apply List.countP_congr
  intro i hi
  have hilen : i < c.length := List.mem_range.mp hi
  simp only [Function.comp]
  rw [← List.map_take, ← List.map_drop, reduceOption_map_some]
  have hw : ((c.take (i + 1)).drop (i + 1 - n)).length = min n (i + 1) := by
    simp only [List.length_drop, List.length_take]
    omega
  by_cases hn : n ≤ i + 1
  · have h1 : ((c.take (i + 1)).drop (i + 1 - n)).length = n := by omega
    have h2 : ¬ (i + 1 < n) := by omega
    simp [hn, h1, h2]
  · have h2 : i + 1 < n := by omega
    have h1 : ((c.take (i + 1)).drop (i + 1 - n)).length ≠ n := by omega
    simp [hn, h2]

theorem countP_range_succ_lt (k : ℕ) : ∀ n : ℕ,
    ((List.range n).countP fun i => decide (i + 1 < k)) = min n (k - 1) := by
  intro n
  induction n with
  | zero => simp
  | succ m ih =>
    rw [List.range_succ, List.countP_append, ih]
    by_cases hm : m + 1 < k
    · have : (List.countP (fun i => decide (i + 1 < k)) [m]) = 1 := by
        simp [List.countP_cons, hm]
      rw [this]
      omega
    · have : (List.countP (fun i => decide (i + 1 < k)) [m]) = 0 := by
        simp [List.countP_cons, hm]
      rw [this]
      omega

/-- C10.  The quality monitor's missing-value ratio ranges over every
column of the processed frame, including the derived indicator columns
whose warm-up entries are null; since `SMA_20` has `min(n, 19)` null
warm-up entries over `n` bars, every non-empty processed series of fewer
than 380 bars has maximum column missing ratio above 5%, so
`check_data_quality` reports the high-missing-values issue even when every
open/high/low/close/volume entry is present. -/
theorem spec_C10 (df : Dag.Frame)
    (hC : df.Close.all Option.isSome = true)
    (hO : df.Open.all Option.isSome = true)
    (hH : df.High.all Option.isSome = true)
    (hL : df.Low.all Option.isSome = true)
    (hV : df.Volume.all Option.isSome = true)
    (h1 : 1 ≤ df.Close.length) (h2 : df.Close.length < 380) :
    5 < Dag.missing_pct (Dag.calculate_technical_indicators df)
  ∧ Dag.Issue.highMissing (Dag.missing_pct (Dag.calculate_technical_indicators df)) ∈
      Dag.check_data_quality (Dag.calculate_technical_indicators df) := by
  have hmap := exists_map_some_of_all_isSome df.Close hC
  have hclen : df.Close.reduceOption.length = df.Close.length := by
    conv_rhs => rw [hmap]
    simp
  have hcount : ((rollingMean 20 df.Close).countP fun x => x.isNone) =
      min df.Close.length 19 := by
    conv_lhs => rw [hmap]
    rw [countP_isNone_rollingMean, countP_range_succ_lt, hclen]
  have hfrac : Dag.nullFrac (rollingMean 20 df.Close) =
      ((min df.Close.length 19 : ℕ) : ℚ) / (df.Close.length : ℚ) := by
    unfold Dag.nullFrac
    rw [hcount, rollingMean_length]
  have hmpos : 0 < df.Close.length := by omega
  have hm0 : (0 : ℚ) < (df.Close.length : ℚ) := by exact_mod_cast hmpos
  have hnat : 5 * df.Close.length < 100 * min df.Close.length 19 := by omega
  have hgt : 5 < 100 * Dag.nullFrac (rollingMean 20 df.Close) := by
    rw [hfrac, ← mul_div_assoc, lt_div_iff₀ hm0]
    exact_mod_cast hnat
  have hsma : (Dag.calculate_technical_indicators df).SMA_20 = rollingMean 20 df.Close := rfl
  have hpct : 5 < Dag.missing_pct (Dag.calculate_technical_indicators df) := by
    unfold Dag.missing_pct
    have hmem : Dag.nullFrac (Dag.calculate_technical_indicators df).SMA_20 ∈
        [0, Dag.nullFrac (Dag.calculate_technical_indicators df).Open,
         Dag.nullFrac (Dag.calculate_technical_indicators df).High,
         Dag.nullFrac (Dag.calculate_technical_indicators df).Low,
         Dag.nullFrac (Dag.calculate_technical_indicators df).Close,
         Dag.nullFrac (Dag.calculate_technical_indicators df).Volume,
         Dag.nullFrac (Dag.calculate_technical_indicators df).SMA_20,
         Dag.nullFrac (Dag.calculate_technical_indicators df).RSI] := by
      simp
    have hle := le_foldr_max _ _ 0 hmem
    have hgt2 : 5 < 100 * Dag.nullFrac (Dag.calculate_technical_indicators df).SMA_20 := by
      rw [hsma]
      exact hgt
    nlinarith
  refine ⟨hpct, ?_⟩
  unfold Dag.check_data_quality
  rw [if_pos hpct]
  simp

/-- Witness for C10: the fully-populated two-bar frame `fNaive` (2 < 380
bars) triggers the high-missing-values issue purely through the indicator
warm-up nulls. -/
theorem spec_C10_witness :
    5 < Dag.missing_pct (Dag.calculate_technical_indicators fNaive)
  ∧ Dag.Issue.highMissing (Dag.missing_pct (Dag.calculate_technical_indicators fNaive)) ∈
      Dag.check_data_quality (Dag.calculate_technical_indicators fNaive) :=
  spec_C10 fNaive (by decide) (by decide) (by decide) (by decide) (by decide)
    (by decide) (by decide)
